import Mathlib

/-!
# MCP23008 driver: shallow embedding and verified properties

The C++ driver in `src/MCP23008.cpp` talks to an 8-bit I2C port expander through
the Arduino `Wire` object.  It is embedded here by explicit state passing: every
member function becomes a function on a `World`, which holds the driver's only
member (`i2caddr`), a mock `Wire` bus that records every call made to it, and
the register file of the device behind the bus.

`uint8_t` values are natural numbers below 256; wherever the C++ stores an
integer expression into a `uint8_t` the embedding reduces it modulo 256.
-/

namespace MCP23008

/-! ## Constants of the missing header `MCP23008.h` -/

/-- Modelled from the spec: `MCP23008_ADDRESS` of the header `MCP23008.h`, which is not
among the sources; section 6 gives the bus address as `0x20 | (a & 0x07)`. -/
def MCP23008_ADDRESS : Nat := 0x20

/-- Modelled from the spec: register `IODIR` of the section 3 register map. -/
def MCP23008_IODIR : Nat := 0x00
/-- Modelled from the spec: register `IPOL` of the section 3 register map. -/
def MCP23008_IPOL : Nat := 0x01
/-- Modelled from the spec: register `GPINTEN` of the section 3 register map. -/
def MCP23008_GPINTEN : Nat := 0x02
/-- Modelled from the spec: register `DEFVAL` of the section 3 register map. -/
def MCP23008_DEFVAL : Nat := 0x03
/-- Modelled from the spec: register `INTCON` of the section 3 register map. -/
def MCP23008_INTCON : Nat := 0x04
/-- Modelled from the spec: register `IOCON` of the section 3 register map. -/
def MCP23008_IOCON : Nat := 0x05
/-- Modelled from the spec: register `GPPU` of the section 3 register map. -/
def MCP23008_GPPU : Nat := 0x06
/-- Modelled from the spec: register `INTF` of the section 3 register map. -/
def MCP23008_INTF : Nat := 0x07
/-- Modelled from the spec: register `INTCAP` of the section 3 register map. -/
def MCP23008_INTCAP : Nat := 0x08
/-- Modelled from the spec: register `GPIO` of the section 3 register map. -/
def MCP23008_GPIO : Nat := 0x09
/-- Modelled from the spec: register `OLAT` of the section 3 register map. -/
def MCP23008_OLAT : Nat := 0x0A

/-- Modelled from the spec: `MCP23008_INT_ERR` of the header `MCP23008.h`, which is not
among the sources; section 6 describes it as a byte that is neither 0 nor 1 nor a pin
index, "e.g. 0xFF". -/
def MCP23008_INT_ERR : Nat := 0xFF

/-! ## The Arduino core -/

/-- The integer tokens of `Arduino.h` that the driver compares against.  Their values
differ between Arduino cores, so they are a parameter of the embedding. -/
structure Arduino where
  INPUT : Nat
  OUTPUT : Nat
  CHANGE : Nat
  RISING : Nat
  FALLING : Nat
  HIGH : Nat

/-- The token values of the AVR core. -/
def avr : Arduino :=
  { INPUT := 0, OUTPUT := 1, CHANGE := 1, RISING := 3, FALLING := 2, HIGH := 1 }

/-- Conversion of an integer expression to `uint8_t`. -/
def u8 (x : Nat) : Nat := x % 256

/-- Modelled from the spec: the macro `bitRead(value, bit)` of `Arduino.h`, which is
`(((value) >> (bit)) & 0x01)`; the spec's "returns bit p". -/
def bitRead (value bit : Nat) : Nat := (value >>> bit) &&& 0x01

/-- Modelled from the spec: the macro `bitSet(value, bit)` of `Arduino.h`, which is
`((value) |= (1UL << (bit)))`, the result stored back into a `uint8_t`. -/
def bitSet (value bit : Nat) : Nat := u8 (value ||| ((1 <<< bit) % 2 ^ 32))

/-- Modelled from the spec: the macro `bitClear(value, bit)` of `Arduino.h`, which is
`((value) &= ~(1UL << (bit)))`, the complement taken in 32 bits and the result stored
back into a `uint8_t`. -/
def bitClear (value bit : Nat) : Nat :=
  u8 (value &&& ((2 ^ 32 - 1) ^^^ ((1 <<< bit) % 2 ^ 32)))

/-- Modelled from the spec: the macro `bitWrite(value, bit, bitvalue)` of `Arduino.h`,
which is `((bitvalue) ? bitSet(value, bit) : bitClear(value, bit))`; section 4.1 of the
spec: "set/clear bit per bitValue (non-zero => 1)". -/
def bitWrite (value bit bitvalue : Nat) : Nat :=
  if bitvalue ≠ 0 then bitSet value bit else bitClear value bit

/-! ## The mock bus and the device behind it -/

/-- One call made to the `Wire` object, as the mock bus records it. -/
inductive WireCall where
  | beginTransmission (address : Nat)
  | send (byte : Nat)
  | endTransmission
  | requestFrom (address : Nat) (quantity : Nat)
  | recv (byte : Nat)
  deriving DecidableEq, Repr

/-- The bus address a recorded call targets, for the two calls that carry one. -/
def WireCall.target : WireCall → Option Nat
  | .beginTransmission a => some a
  | .requestFrom a _ => some a
  | _ => none

/-- The driver instance together with its environment.

* `i2caddr` is the driver's member variable.
* `regs` is the register file of the device (a byte per register address) and `ptr`
  the device's register address pointer.
* `txBuf` and `rxBuf` are the transmit and receive buffers of `Wire`.
* `log` is every call made to `Wire`, oldest first. -/
structure World where
  i2caddr : Nat
  regs : Nat → Nat
  ptr : Nat
  txBuf : List Nat
  rxBuf : List Nat
  log : List WireCall

/-- A register write as the device performs it: the register takes the value, and a
write to `GPIO` also loads the output latch `OLAT` (section 3 of the spec: "write
modifies OLAT"). -/
def deviceWrite (regs : Nat → Nat) (reg val : Nat) : Nat → Nat :=
  fun r => if r = reg then val
    else if reg = MCP23008_GPIO ∧ r = MCP23008_OLAT then val
    else regs r

/-- Delivery of a finished write transaction to the device: the first byte loads the
address pointer, the second (when present) is written to that register, and bytes after
the second are ignored (section 9 of the spec: "that extra byte is unaddressed and
ignored"). -/
def deviceReceive (w : World) : List Nat → World
  | [] => w
  | [reg] => { w with ptr := reg }
  | reg :: val :: _ => { w with ptr := reg, regs := deviceWrite w.regs reg val }

/-- The call `Wire.beginTransmission(address)`: starts queueing a write transaction. -/
def beginTransmission (address : Nat) (w : World) : World :=
  { w with txBuf := [], log := w.log ++ [.beginTransmission address] }

/-- The helper `wiresend(x)`: queues one byte, `Wire.write((uint8_t) x)`. -/
def wiresend (x : Nat) (w : World) : World :=
  { w with txBuf := w.txBuf ++ [u8 x], log := w.log ++ [.send (u8 x)] }

/-- The call `Wire.endTransmission()`: sends the queued bytes to the device and stops. -/
def endTransmission (w : World) : World :=
  let w1 := deviceReceive w w.txBuf
  { w1 with txBuf := [], log := w1.log ++ [.endTransmission] }

/-- The call `Wire.requestFrom(address, quantity)`: the device answers with the register under
its address pointer, once per requested byte. -/
def requestFrom (address quantity : Nat) (w : World) : World :=
  { w with rxBuf := List.replicate quantity (u8 (w.regs w.ptr)),
           log := w.log ++ [.requestFrom address quantity] }

/-- The helper `wirerecv()`: takes the next received byte, `Wire.read()`; an empty
buffer makes `Wire.read()` return -1, which is 255 as a `uint8_t`. -/
def wirerecv (w : World) : Nat × World :=
  match w.rxBuf with
  | [] => (0xFF, { w with log := w.log ++ [.recv 0xFF] })
  | b :: rest => (u8 b, { w with rxBuf := rest, log := w.log ++ [.recv (u8 b)] })

/-! ## The driver, function by function -/

/-- The member function `MCP23008::bitForPin`. -/
def bitForPin (pin : Nat) : Nat := u8 (pin % 8)

/-- The member function `MCP23008::regForPin`. -/
def regForPin (_pin portAddr : Nat) : Nat := portAddr

/-- The member function `MCP23008::readRegister`. -/
def readRegister (addr : Nat) (w : World) : Nat × World :=
  let w := beginTransmission (MCP23008_ADDRESS ||| w.i2caddr) w
  let w := wiresend addr w
  let w := endTransmission w
  let w := requestFrom (MCP23008_ADDRESS ||| w.i2caddr) 1 w
  wirerecv w

/-- The member function `MCP23008::writeRegister`. -/
def writeRegister (regAddr regValue : Nat) (w : World) : World :=
  let w := beginTransmission (MCP23008_ADDRESS ||| w.i2caddr) w
  let w := wiresend regAddr w
  let w := wiresend regValue w
  endTransmission w

/-- The member function `MCP23008::updateRegisterBit`. -/
def updateRegisterBit (pin pValue portAddr : Nat) (w : World) : World :=
  let regAddr := regForPin pin portAddr
  let bit := bitForPin pin
  let (regValue, w) := readRegister regAddr w
  let regValue := bitWrite regValue bit pValue
  writeRegister regAddr regValue w

/-- The member function `MCP23008::begin(uint8_t addr)`. -/
def begin (addr : Nat) (w : World) : World :=
  let addr := if addr > 7 then 7 else addr
  let w := { w with i2caddr := addr }
  writeRegister MCP23008_IODIR 0xff w

/-- The member function `MCP23008::begin(void)`. -/
def beginDefault (w : World) : World := begin 0 w

/-- The member function `MCP23008::pinMode`. -/
def pinMode (A : Arduino) (p d : Nat) (w : World) : World :=
  updateRegisterBit p (if d = A.INPUT then 1 else 0) MCP23008_IODIR w

/-- The member function `MCP23008::readGPIO`. -/
def readGPIO (w : World) : Nat × World :=
  let w := beginTransmission (MCP23008_ADDRESS ||| w.i2caddr) w
  let w := wiresend MCP23008_GPIO w
  let w := endTransmission w
  let w := requestFrom (MCP23008_ADDRESS ||| w.i2caddr) 1 w
  wirerecv w

/-- The member function `MCP23008::writeGPIO`. -/
def writeGPIO (ba : Nat) (w : World) : World :=
  let w := beginTransmission (MCP23008_ADDRESS ||| w.i2caddr) w
  let w := wiresend MCP23008_GPIO w
  let w := wiresend (ba &&& 0xFF) w
  let w := wiresend (ba >>> 8) w
  endTransmission w

/-- The member function `MCP23008::digitalWrite`. -/
def digitalWrite (pin d : Nat) (w : World) : World :=
  let bit := bitForPin pin
  let regAddr := regForPin pin MCP23008_OLAT
  let (gpio, w) := readRegister regAddr w
  let gpio := bitWrite gpio bit d
  let regAddr := regForPin pin MCP23008_GPIO
  writeRegister regAddr gpio w

/-- The member function `MCP23008::pullUp`. -/
def pullUp (p d : Nat) (w : World) : World :=
  updateRegisterBit p d MCP23008_GPPU w

/-- The member function `MCP23008::digitalRead`. -/
def digitalRead (pin : Nat) (w : World) : Nat × World :=
  let bit := bitForPin pin
  let regAddr := regForPin pin MCP23008_GPIO
  let (r, w) := readRegister regAddr w
  (u8 ((r >>> bit) &&& 0x1), w)

/-- The member function `MCP23008::setupInterrupts`. -/
def setupInterrupts (mirroring openDrain polarity : Nat) (w : World) : World :=
  let (ioconfValue, w) := readRegister MCP23008_IOCON w
  let ioconfValue := bitWrite ioconfValue 6 mirroring
  let ioconfValue := bitWrite ioconfValue 2 openDrain
  let ioconfValue := bitWrite ioconfValue 1 polarity
  writeRegister MCP23008_IOCON ioconfValue w

/-- The member function `MCP23008::setupInterruptPin`. -/
def setupInterruptPin (A : Arduino) (pin mode : Nat) (w : World) : World :=
  let w := updateRegisterBit pin (if mode ≠ A.CHANGE then 1 else 0) MCP23008_INTCON w
  let w := updateRegisterBit pin (if mode = A.FALLING then 1 else 0) MCP23008_DEFVAL w
  updateRegisterBit pin A.HIGH MCP23008_GPINTEN w

/-- The loop `for(int i=0; i<8; i++) if (bitRead(intf, i)) return i;` of
`getLastInterruptPin`, followed by its `return MCP23008_INT_ERR;`.  The first argument
counts the iterations left, `8 - i`. -/
def scanPins (intf : Nat) : Nat → Nat → Nat
  | 0, _ => MCP23008_INT_ERR
  | n + 1, i => if bitRead intf i ≠ 0 then u8 i else scanPins intf n (i + 1)

/-- The member function `MCP23008::getLastInterruptPin`. -/
def getLastInterruptPin (w : World) : Nat × World :=
  let (intf, w) := readRegister MCP23008_INTF w
  (scanPins intf 8 0, w)

/-- The member function `MCP23008::getLastInterruptPinValue`. -/
def getLastInterruptPinValue (w : World) : Nat × World :=
  let (intPin, w) := getLastInterruptPin w
  if intPin ≠ MCP23008_INT_ERR then
    let intcapreg := regForPin intPin MCP23008_INTCAP
    let bit := bitForPin intPin
    let (r, w) := readRegister intcapreg w
    (u8 ((r >>> bit) &&& 0x01), w)
  else
    (MCP23008_INT_ERR, w)

/-! ## Call sequences -/

/-- A freshly constructed driver in front of a device with the given register
contents, nothing recorded on the bus yet. -/
def World.init (regs : Nat → Nat) : World :=
  { i2caddr := 0, regs := regs, ptr := 0, txBuf := [], rxBuf := [], log := [] }

/-- One call of a member function of the driver, with its arguments. -/
inductive Op where
  | begin (addr : Nat)
  | beginDefault
  | pinMode (p d : Nat)
  | readGPIO
  | writeGPIO (ba : Nat)
  | digitalWrite (pin d : Nat)
  | pullUp (p d : Nat)
  | digitalRead (pin : Nat)
  | setupInterrupts (mirroring openDrain polarity : Nat)
  | setupInterruptPin (pin mode : Nat)
  | getLastInterruptPin
  | getLastInterruptPinValue
  | readRegister (addr : Nat)
  | writeRegister (regAddr regValue : Nat)
  | updateRegisterBit (pin pValue portAddr : Nat)
  deriving DecidableEq, Repr

/-- Whether the call is one of the two overloads of `begin`. -/
def Op.isBegin : Op → Bool
  | .begin _ => true
  | .beginDefault => true
  | _ => false

/-- Runs one call: the returned byte (`none` for a `void` function) and the world
after it. -/
def Op.run (A : Arduino) : Op → World → Option Nat × World
  | .begin addr, w => (none, MCP23008.begin addr w)
  | .beginDefault, w => (none, MCP23008.beginDefault w)
  | .pinMode p d, w => (none, MCP23008.pinMode A p d w)
  | Op.readGPIO, w => let (r, w1) := MCP23008.readGPIO w; (some r, w1)
  | Op.writeGPIO ba, w => (none, MCP23008.writeGPIO ba w)
  | .digitalWrite pin d, w => (none, MCP23008.digitalWrite pin d w)
  | .pullUp p d, w => (none, MCP23008.pullUp p d w)
  | .digitalRead pin, w => let (r, w1) := MCP23008.digitalRead pin w; (some r, w1)
  | .setupInterrupts m o p, w => (none, MCP23008.setupInterrupts m o p w)
  | .setupInterruptPin pin mode, w => (none, MCP23008.setupInterruptPin A pin mode w)
  | .getLastInterruptPin, w => let (r, w1) := MCP23008.getLastInterruptPin w; (some r, w1)
  | .getLastInterruptPinValue, w =>
      let (r, w1) := MCP23008.getLastInterruptPinValue w; (some r, w1)
  | .readRegister addr, w => let (r, w1) := MCP23008.readRegister addr w; (some r, w1)
  | .writeRegister regAddr regValue, w => (none, MCP23008.writeRegister regAddr regValue w)
  | .updateRegisterBit pin pValue portAddr, w =>
      (none, MCP23008.updateRegisterBit pin pValue portAddr w)

/-- Runs a sequence of calls, first to last. -/
def runOps (A : Arduino) : List Op → World → World
  | [], w => w
  | op :: ops, w => runOps A ops (op.run A w).2

/-- The calls recorded on the bus between world `w` and a later world `w1`. -/
def emitted (w w1 : World) : List WireCall := w1.log.drop w.log.length


/-- Between `w` and `w1` the driver kept its address and only targeted the bus address
composed from it. -/
def Addressed (w w1 : World) : Prop :=
  w1.i2caddr = w.i2caddr ∧
    ∃ l, w1.log = w.log ++ l ∧
      ∀ e ∈ l, ∀ t, e.target = some t → t = MCP23008_ADDRESS ||| w.i2caddr

/-- Whether the call is one of the three register primitives underneath the pin-level
operations (`readRegister`, `writeRegister`, `updateRegisterBit`). -/
def Op.isPrimitive : Op → Bool
  | .readRegister _ => true
  | .writeRegister _ _ => true
  | .updateRegisterBit _ _ _ => true
  | _ => false

/-- The calls of one register read as the bus records them: the register address sent
in a write transaction of its own, then a one-byte request answered by `val`. -/
def readTxn (busAddr reg val : Nat) : List WireCall :=
  [.beginTransmission busAddr, .send reg, .endTransmission, .requestFrom busAddr 1,
    .recv val]

/-- The calls of one register write as the bus records them: the register address and
one payload byte in a single write transaction. -/
def writeTxn (busAddr reg val : Nat) : List WireCall :=
  [.beginTransmission busAddr, .send reg, .send val, .endTransmission]

/-- The register writes carried by a recorded call sequence, in order: every write
transaction that holds a payload byte after the register address gives the pair of
register and payload byte.  The second argument collects the bytes sent since the last
`beginTransmission`. -/
def registerWrites : List WireCall → List Nat → List (Nat × Nat)
  | [], _ => []
  | .beginTransmission _ :: l, _ => registerWrites l []
  | .send b :: l, buf => registerWrites l (buf ++ [b])
  | .endTransmission :: l, buf =>
      match buf with
      | reg :: val :: _ => (reg, val) :: registerWrites l []
      | _ => registerWrites l []
  | .requestFrom _ _ :: l, buf => registerWrites l buf
  | .recv _ :: l, buf => registerWrites l buf

/-! ## Bits of bytes -/

theorem testBit_u8 (x i : Nat) : (u8 x).testBit i = (decide (i < 8) && x.testBit i) := by
  have h : (256 : Nat) = 2 ^ 8 := by norm_num
  unfold u8
  rw [h, Nat.testBit_mod_two_pow]

theorem u8_lt (x : Nat) : u8 x < 256 := Nat.mod_lt _ (by norm_num)

theorem u8_of_lt {x : Nat} (h : x < 256) : u8 x = x := Nat.mod_eq_of_lt h

theorem testBit_bitSet (v b i : Nat) (hi : i < 8) :
    (bitSet v b).testBit i = (v.testBit i || decide (i = b)) := by
  unfold bitSet
  rw [testBit_u8, Nat.testBit_lor, Nat.one_shiftLeft, Nat.testBit_mod_two_pow,
    Nat.testBit_two_pow]
  have : i < 32 := by omega
  simp [hi, this, eq_comm]

theorem testBit_bitClear (v b i : Nat) (hi : i < 8) :
    (bitClear v b).testBit i = (v.testBit i && !decide (i = b)) := by
  unfold bitClear
  rw [testBit_u8, Nat.testBit_land, Nat.testBit_xor, Nat.one_shiftLeft,
    Nat.testBit_mod_two_pow, Nat.testBit_two_pow, Nat.testBit_two_pow_sub_one]
  have : i < 32 := by omega
  simp [hi, this, eq_comm]

theorem testBit_bitWrite (v b x i : Nat) (hi : i < 8) :
    (bitWrite v b x).testBit i = if i = b then decide (x ≠ 0) else v.testBit i := by
  unfold bitWrite
  by_cases hx : x = 0 <;> by_cases hib : i = b <;>
    simp [hx, hib, testBit_bitSet, testBit_bitClear, hi]
  · subst hib; simp [testBit_bitClear, hi]
  · subst hib; simp [testBit_bitSet, hi]

theorem bitWrite_lt (v b x : Nat) : bitWrite v b x < 256 := by
  unfold bitWrite bitSet bitClear
  split <;> exact u8_lt _

theorem bitForPin_of_lt {p : Nat} (hp : p < 8) : bitForPin p = p := by
  unfold bitForPin u8; omega

theorem bitForPin_lt (p : Nat) : bitForPin p < 8 := by
  unfold bitForPin u8; omega

/-! ## The two register primitives in closed form -/

theorem readRegister_eq (addr : Nat) (w : World) :
    readRegister addr w =
      (u8 (w.regs (u8 addr)),
        { w with ptr := u8 addr, txBuf := [], rxBuf := [],
                 log := w.log ++ [.beginTransmission (MCP23008_ADDRESS ||| w.i2caddr),
                   .send (u8 addr), .endTransmission,
                   .requestFrom (MCP23008_ADDRESS ||| w.i2caddr) 1,
                   .recv (u8 (w.regs (u8 addr)))] }) := by
  simp [readRegister, beginTransmission, wiresend, endTransmission, requestFrom, wirerecv,
    deviceReceive, u8]

theorem writeRegister_eq (regAddr regValue : Nat) (w : World) :
    writeRegister regAddr regValue w =
        { w with ptr := u8 regAddr, txBuf := [],
                 regs := deviceWrite w.regs (u8 regAddr) (u8 regValue)
                 log := w.log ++ [.beginTransmission (MCP23008_ADDRESS ||| w.i2caddr),
                   .send (u8 regAddr), .send (u8 regValue), .endTransmission] } := by
  simp [writeRegister, beginTransmission, wiresend, endTransmission, deviceReceive, u8]

theorem updateRegisterBit_eq (pin pValue portAddr : Nat) (w : World) :
    updateRegisterBit pin pValue portAddr w =
        { w with ptr := u8 portAddr, txBuf := [], rxBuf := [],
                 regs := deviceWrite w.regs (u8 portAddr)
                   (bitWrite (u8 (w.regs (u8 portAddr))) (bitForPin pin) pValue)
                 log := w.log ++ [.beginTransmission (MCP23008_ADDRESS ||| w.i2caddr),
                   .send (u8 portAddr), .endTransmission,
                   .requestFrom (MCP23008_ADDRESS ||| w.i2caddr) 1,
                   .recv (u8 (w.regs (u8 portAddr))),
                   .beginTransmission (MCP23008_ADDRESS ||| w.i2caddr),
                   .send (u8 portAddr),
                   .send (bitWrite (u8 (w.regs (u8 portAddr))) (bitForPin pin) pValue),
                   .endTransmission] } := by
  simp [updateRegisterBit, regForPin, readRegister_eq, writeRegister_eq, u8_of_lt (bitWrite_lt _ _ _)]

theorem readGPIO_eq (w : World) : readGPIO w = readRegister MCP23008_GPIO w := rfl

theorem writeGPIO_eq (ba : Nat) (w : World) :
    writeGPIO ba w =
        { w with ptr := MCP23008_GPIO, txBuf := [],
                 regs := deviceWrite w.regs MCP23008_GPIO (u8 (ba &&& 0xFF))
                 log := w.log ++ [.beginTransmission (MCP23008_ADDRESS ||| w.i2caddr),
                   .send MCP23008_GPIO, .send (u8 (ba &&& 0xFF)), .send (u8 (ba >>> 8)),
                   .endTransmission] } := by
  simp [ writeGPIO, beginTransmission, wiresend, endTransmission, deviceReceive, u8,
    MCP23008_GPIO]

/-! ## Bus addressing -/

theorem Addressed.refl (w : World) : Addressed w w :=
  ⟨rfl, [], by simp, by simp⟩

theorem Addressed.trans {w w1 w2 : World} (h1 : Addressed w w1) (h2 : Addressed w1 w2) :
    Addressed w w2 := by
  obtain ⟨ha1, l1, hl1, ht1⟩ := h1
  obtain ⟨ha2, l2, hl2, ht2⟩ := h2
  refine ⟨ha2.trans ha1, l1 ++ l2, by rw [hl2, hl1, List.append_assoc], ?_⟩
  intro e he t het
  rcases List.mem_append.mp he with h | h
  · exact ht1 e h t het
  · rw [← ha1]; exact ht2 e h t het

theorem addressed_readRegister (addr : Nat) (w : World) :
    Addressed w (readRegister addr w).2 := by
  rw [readRegister_eq]
  refine ⟨rfl, _, rfl, ?_⟩
  intro e he t het
  simp only [List.mem_cons, List.mem_singleton, List.not_mem_nil, or_false] at he
  rcases he with rfl | rfl | rfl | rfl | rfl <;> simp_all [WireCall.target]

theorem addressed_writeRegister (regAddr regValue : Nat) (w : World) :
    Addressed w (writeRegister regAddr regValue w) := by
  rw [writeRegister_eq]
  refine ⟨rfl, _, rfl, ?_⟩
  intro e he t het
  simp only [List.mem_cons, List.mem_singleton, List.not_mem_nil, or_false] at he
  rcases he with rfl | rfl | rfl | rfl <;> simp_all [WireCall.target]

theorem addressed_writeGPIO (ba : Nat) (w : World) : Addressed w ( writeGPIO ba w) := by
  rw [writeGPIO_eq]
  refine ⟨rfl, _, rfl, ?_⟩
  intro e he t het
  simp only [List.mem_cons, List.mem_singleton, List.not_mem_nil, or_false] at he
  rcases he with rfl | rfl | rfl | rfl | rfl <;> simp_all [WireCall.target]

theorem addressed_updateRegisterBit (pin pValue portAddr : Nat) (w : World) :
    Addressed w (updateRegisterBit pin pValue portAddr w) :=
  (addressed_readRegister _ w).trans (addressed_writeRegister _ _ _)

theorem addressed_getLastInterruptPin (w : World) :
    Addressed w (getLastInterruptPin w).2 :=
  addressed_readRegister _ w

theorem addressed_getLastInterruptPinValue (w : World) :
    Addressed w (getLastInterruptPinValue w).2 := by
  unfold getLastInterruptPinValue
  simp only []
  split
  · exact (addressed_getLastInterruptPin w).trans (addressed_readRegister _ _)
  · exact addressed_getLastInterruptPin w

theorem addressed_run (A : Arduino) (op : Op) (h : op.isBegin = false) (w : World) :
    Addressed w (op.run A w).2 := by
  cases op with
  | begin addr => simp [Op.isBegin] at h
  | beginDefault => simp [Op.isBegin] at h
  | pinMode p d => exact addressed_updateRegisterBit _ _ _ w
  | readGPIO => exact addressed_readRegister _ w
  | writeGPIO ba => exact addressed_writeGPIO ba w
  | digitalWrite pin d =>
      exact (addressed_readRegister _ w).trans (addressed_writeRegister _ _ _)
  | pullUp p d => exact addressed_updateRegisterBit _ _ _ w
  | digitalRead pin => exact addressed_readRegister _ w
  | setupInterrupts m o p =>
      exact (addressed_readRegister _ w).trans (addressed_writeRegister _ _ _)
  | setupInterruptPin pin mode =>
      exact ((addressed_updateRegisterBit _ _ _ w).trans
        (addressed_updateRegisterBit _ _ _ _)).trans (addressed_updateRegisterBit _ _ _ _)
  | getLastInterruptPin => exact addressed_getLastInterruptPin w
  | getLastInterruptPinValue => exact addressed_getLastInterruptPinValue w
  | readRegister addr => exact addressed_readRegister _ w
  | writeRegister regAddr regValue => exact addressed_writeRegister _ _ w
  | updateRegisterBit pin pValue portAddr => exact addressed_updateRegisterBit _ _ _ w

theorem addressed_runOps (A : Arduino) (ops : List Op)
    (h : ∀ op ∈ ops, op.isBegin = false) (w : World) : Addressed w (runOps A ops w) := by
  induction ops generalizing w with
  | nil => exact Addressed.refl w
  | cons op ops ih =>
      have h1 := addressed_run A op (h op (List.mem_cons_self _ _)) w
      exact h1.trans (ih (fun o ho => h o (List.mem_cons_of_mem _ ho)) _)

theorem addressed_begin (addr : Nat) (w : World) :
    Addressed { w with i2caddr := if addr > 7 then 7 else addr } (begin addr w) :=
  addressed_writeRegister _ _ _

/-- C1. After `begin(a)`, every call recorded on the bus from `begin` on, through any
sequence of later driver operations that is not another `begin`, targets bus address
`0x20 | a` when `a <= 7` and `0x27` when `a > 7`. -/
theorem begin_fixes_bus_address (A : Arduino) (a : Nat) (ops : List Op)
    (hops : ∀ op ∈ ops, op.isBegin = false) (w : World) :
    ∀ e ∈ emitted w (runOps A ops (begin a w)), ∀ t, e.target = some t →
      t = if a ≤ 7 then 0x20 ||| a else 0x27 := by
  have h := (addressed_begin a w).trans (addressed_runOps A ops hops (begin a w))
  obtain ⟨-, l, hl, ht⟩ := h
  intro e he t het
  have hlog : emitted w (runOps A ops (begin a w)) = l := by
    unfold emitted
    rw [hl]
    simp
  rw [hlog] at he
  have := ht e he t het
  rw [this]
  by_cases ha : a ≤ 7
  · have : ¬ a > 7 := by omega
    simp [ha, this, MCP23008_ADDRESS]
  · have : a > 7 := by omega
    simp [ha, this, MCP23008_ADDRESS]

/-- Witness for C1: `begin(42)` followed by a direction change, a port write and a pin
read keeps every recorded call on bus address `0x27`. -/
theorem begin_fixes_bus_address_witness :
    (∀ op ∈ [Op.pinMode 3 1, Op.writeGPIO 0x55, Op.digitalRead 3], op.isBegin = false) ∧
      ∀ e ∈ emitted (World.init (fun _ => 0))
          (runOps avr [Op.pinMode 3 1, Op.writeGPIO 0x55, Op.digitalRead 3]
            (begin 42 (World.init (fun _ => 0)))),
        ∀ t, e.target = some t → t = 0x27 :=
  ⟨by decide, begin_fixes_bus_address avr 42 _ (by decide) _⟩

/-! ## Register contents after a write -/

theorem deviceWrite_same (regs : Nat → Nat) (reg val : Nat) :
    deviceWrite regs reg val reg = val := by
  simp [deviceWrite]

theorem deviceWrite_other (regs : Nat → Nat) {reg r : Nat} (val : Nat) (h : r ≠ reg)
    (hg : reg ≠ MCP23008_GPIO) : deviceWrite regs reg val r = regs r := by
  simp [deviceWrite, h, hg]

theorem emitted_append (w w1 : World) (l : List WireCall) (h : w1.log = w.log ++ l) :
    emitted w w1 = l := by
  unfold emitted
  rw [h]
  simp

/-! ## Initialisation -/

/-- C2. For every address argument `a`, `begin(a)` records exactly one write transaction
on the bus, register address `IODIR` (0x00) followed by the byte 0xFF, and no read; in
the device only `IODIR` changes, to 0xFF.  `begin()` without argument does what
`begin(0)` does. -/
theorem begin_emits_one_write (a : Nat) (w : World) :
    emitted w (begin a w) =
        [.beginTransmission (MCP23008_ADDRESS ||| min a 7), .send 0x00, .send 0xFF,
          .endTransmission] ∧
      (begin a w).regs MCP23008_IODIR = 0xFF ∧
      (∀ r, r ≠ MCP23008_IODIR → (begin a w).regs r = w.regs r) ∧
      beginDefault w = begin 0 w ∧
      emitted w (beginDefault w) = emitted w (begin 0 w) := by
  have hmin : (if a > 7 then 7 else a) = min a 7 := by
    by_cases h : a > 7
    · simp [h]; omega
    · simp [h]; omega
  refine ⟨?_, ?_, ?_, rfl, rfl⟩
  · apply emitted_append
    simp [begin, writeRegister_eq, hmin, u8, MCP23008_IODIR]
  · simp [begin, writeRegister_eq, u8, MCP23008_IODIR, deviceWrite]
  · intro r hr
    simp only [begin, writeRegister_eq]
    exact deviceWrite_other _ _ (by simpa [u8, MCP23008_IODIR] using hr)
      (by simp [u8, MCP23008_IODIR, MCP23008_GPIO])

/-! ## Pin direction -/

theorem pinMode_regs (A : Arduino) (p d : Nat) (w : World) :
    (pinMode A p d w).regs MCP23008_IODIR =
      bitWrite (u8 (w.regs MCP23008_IODIR)) (bitForPin p) (if d = A.INPUT then 1 else 0) := by
  simp [pinMode, updateRegisterBit_eq, u8_of_lt, MCP23008_IODIR, deviceWrite]

/-- C3. For every pin `p` in 0..7 and every initial `IODIR` value, `pinMode(p, INPUT)`
followed by `pinMode(p, OUTPUT)`, against a device whose reads return the last value
written, leaves `IODIR` with bit `p` cleared and every other bit as it was before. -/
theorem pinMode_input_then_output (A : Arduino) (hio : A.OUTPUT ≠ A.INPUT) (p : Nat)
    (hp : p < 8) (w : World) :
    ((pinMode A p A.OUTPUT (pinMode A p A.INPUT w)).regs MCP23008_IODIR).testBit p = false ∧
      ∀ i, i < 8 → i ≠ p →
        ((pinMode A p A.OUTPUT (pinMode A p A.INPUT w)).regs MCP23008_IODIR).testBit i =
          (w.regs MCP23008_IODIR).testBit i := by
  rw [pinMode_regs, pinMode_regs, bitForPin_of_lt hp, u8_of_lt (bitWrite_lt _ _ _)]
  constructor
  · rw [testBit_bitWrite _ _ _ _ hp]
    simp [hio]
  · intro i hi hip
    rw [testBit_bitWrite _ _ _ _ hi, testBit_bitWrite _ _ _ _ hi, testBit_u8]
    simp [hip, hi]

/-- Witness for C3: the AVR tokens, pin 3, a device whose `IODIR` holds 0xFF. -/
theorem pinMode_input_then_output_witness :
    avr.OUTPUT ≠ avr.INPUT ∧ 3 < 8 ∧
      ((pinMode avr 3 avr.OUTPUT (pinMode avr 3 avr.INPUT
        (World.init (fun _ => 0xFF)))).regs MCP23008_IODIR).testBit 3 = false :=
  ⟨by decide, by decide,
    (pinMode_input_then_output avr (by decide) 3 (by decide) (World.init (fun _ => 0xFF))).1⟩

/-! ## Interrupt configuration -/

theorem updateRegisterBit_regs_same (pin pValue portAddr : Nat) (hport : portAddr < 256)
    (w : World) :
    (updateRegisterBit pin pValue portAddr w).regs portAddr =
      bitWrite (u8 (w.regs portAddr)) (bitForPin pin) pValue := by
  simp [updateRegisterBit_eq, u8_of_lt hport, deviceWrite]

theorem updateRegisterBit_regs_other (pin pValue portAddr r : Nat) (hport : portAddr < 256)
    (hr : r ≠ portAddr) (hg : portAddr ≠ MCP23008_GPIO) (w : World) :
    (updateRegisterBit pin pValue portAddr w).regs r = w.regs r := by
  simp [updateRegisterBit_eq, u8_of_lt hport, deviceWrite, hr, hg]

theorem setupInterruptPin_regs (A : Arduino) (pin mode : Nat) (w : World) :
    (setupInterruptPin A pin mode w).regs MCP23008_INTCON =
        bitWrite (u8 (w.regs MCP23008_INTCON)) (bitForPin pin)
          (if mode ≠ A.CHANGE then 1 else 0) ∧
      (setupInterruptPin A pin mode w).regs MCP23008_DEFVAL =
        bitWrite (u8 (w.regs MCP23008_DEFVAL)) (bitForPin pin)
          (if mode = A.FALLING then 1 else 0) ∧
      (setupInterruptPin A pin mode w).regs MCP23008_GPINTEN =
        bitWrite (u8 (w.regs MCP23008_GPINTEN)) (bitForPin pin) A.HIGH := by
  unfold setupInterruptPin
  refine ⟨?_, ?_, ?_⟩
  · rw [updateRegisterBit_regs_other _ _ _ _ (by decide) (by decide) (by decide),
      updateRegisterBit_regs_other _ _ _ _ (by decide) (by decide) (by decide),
      updateRegisterBit_regs_same _ _ _ (by decide)]
  · rw [updateRegisterBit_regs_other _ _ _ _ (by decide) (by decide) (by decide),
      updateRegisterBit_regs_same _ _ _ (by decide),
      updateRegisterBit_regs_other _ _ _ _ (by decide) (by decide) (by decide)]
  · rw [updateRegisterBit_regs_same _ _ _ (by decide),
      updateRegisterBit_regs_other _ _ _ _ (by decide) (by decide) (by decide),
      updateRegisterBit_regs_other _ _ _ _ (by decide) (by decide) (by decide)]

/-- C4. For every pin `p` in 0..7 and every initial register contents, after
`setupInterruptPin(p, m)` bit `p` of `GPINTEN` is 1 in all three modes; bit `p` of
`INTCON` and of `DEFVAL` is 0, 0 for `m = CHANGE`, 1, 0 for `m = RISING` and 1, 1 for
`m = FALLING`. -/
theorem setupInterruptPin_encoding (A : Arduino) (hcr : A.CHANGE ≠ A.RISING)
    (hcf : A.CHANGE ≠ A.FALLING) (hrf : A.RISING ≠ A.FALLING) (hhigh : A.HIGH ≠ 0)
    (p : Nat) (hp : p < 8) (w : World) :
    (((setupInterruptPin A p A.CHANGE w).regs MCP23008_GPINTEN).testBit p = true ∧
      ((setupInterruptPin A p A.CHANGE w).regs MCP23008_INTCON).testBit p = false ∧
      ((setupInterruptPin A p A.CHANGE w).regs MCP23008_DEFVAL).testBit p = false) ∧
    (((setupInterruptPin A p A.RISING w).regs MCP23008_GPINTEN).testBit p = true ∧
      ((setupInterruptPin A p A.RISING w).regs MCP23008_INTCON).testBit p = true ∧
      ((setupInterruptPin A p A.RISING w).regs MCP23008_DEFVAL).testBit p = false) ∧
    (((setupInterruptPin A p A.FALLING w).regs MCP23008_GPINTEN).testBit p = true ∧
      ((setupInterruptPin A p A.FALLING w).regs MCP23008_INTCON).testBit p = true ∧
      ((setupInterruptPin A p A.FALLING w).regs MCP23008_DEFVAL).testBit p = true) := by
  refine ⟨⟨?_, ?_, ?_⟩, ⟨?_, ?_, ?_⟩, ⟨?_, ?_, ?_⟩⟩ <;>
    first
    | rw [(setupInterruptPin_regs A p _ w).2.2, bitForPin_of_lt hp,
        testBit_bitWrite _ _ _ _ hp]
      simp [hhigh]
    | rw [(setupInterruptPin_regs A p _ w).1, bitForPin_of_lt hp,
        testBit_bitWrite _ _ _ _ hp]
      simp [hcr.symm, hcf.symm]
    | rw [(setupInterruptPin_regs A p _ w).2.1, bitForPin_of_lt hp,
        testBit_bitWrite _ _ _ _ hp]
      simp [hcf, hrf]

/-- Witness for C4: the AVR tokens, pin 5, a device whose registers all hold 0x00, so
that falling-edge mode has to set all three bits. -/
theorem setupInterruptPin_encoding_witness :
    avr.CHANGE ≠ avr.RISING ∧ avr.CHANGE ≠ avr.FALLING ∧ avr.RISING ≠ avr.FALLING ∧
      avr.HIGH ≠ 0 ∧ 5 < 8 ∧
      ((setupInterruptPin avr 5 avr.FALLING
          (World.init (fun _ => 0))).regs MCP23008_GPINTEN).testBit 5 = true ∧
      ((setupInterruptPin avr 5 avr.FALLING
          (World.init (fun _ => 0))).regs MCP23008_INTCON).testBit 5 = true ∧
      ((setupInterruptPin avr 5 avr.FALLING
          (World.init (fun _ => 0))).regs MCP23008_DEFVAL).testBit 5 = true :=
  ⟨by decide, by decide, by decide, by decide, by decide,
    (setupInterruptPin_encoding avr (by decide) (by decide) (by decide) (by decide) 5
      (by decide) (World.init (fun _ => 0))).2.2⟩

/-- C5. For every initial `IOCON` value and every three arguments, `setupInterrupts`
reads `IOCON` and writes back to `IOCON` (0x05) one byte whose bit 6 is 1 iff
`mirroring` is non-zero, bit 2 is 1 iff `openDrain` is non-zero, bit 1 is 1 iff
`polarity` is non-zero, and whose bits 7, 5, 4, 3 and 0 are those of the value read.
With `IOCON` preloaded to 0b10101010, `setupInterrupts(1,0,1)` gives 0b11101010. -/
theorem setupInterrupts_iocon (mirroring openDrain polarity : Nat) (w : World) :
    (∃ x, emitted w (setupInterrupts mirroring openDrain polarity w) =
          [.beginTransmission (MCP23008_ADDRESS ||| w.i2caddr), .send 0x05,
            .endTransmission, .requestFrom (MCP23008_ADDRESS ||| w.i2caddr) 1,
            .recv (w.regs MCP23008_IOCON % 256),
            .beginTransmission (MCP23008_ADDRESS ||| w.i2caddr), .send 0x05, .send x,
            .endTransmission] ∧
        (setupInterrupts mirroring openDrain polarity w).regs MCP23008_IOCON = x ∧
        x < 256 ∧
        x.testBit 6 = decide (mirroring ≠ 0) ∧
        x.testBit 2 = decide (openDrain ≠ 0) ∧
        x.testBit 1 = decide (polarity ≠ 0) ∧
        ∀ i ∈ [7, 5, 4, 3, 0], x.testBit i = (w.regs MCP23008_IOCON).testBit i) ∧
      (setupInterrupts 1 0 1 (World.init (fun r => if r = MCP23008_IOCON then 0b10101010
        else 0))).regs MCP23008_IOCON = 0b11101010 := by
  refine ⟨⟨bitWrite (bitWrite (bitWrite (u8 (w.regs MCP23008_IOCON)) 6 mirroring) 2
    openDrain) 1 polarity, ?_, ?_, bitWrite_lt _ _ _, ?_, ?_, ?_, ?_⟩, ?_⟩
  · apply emitted_append
    simp [setupInterrupts, readRegister_eq, writeRegister_eq, u8_of_lt (bitWrite_lt _ _ _)]
    simp [u8, MCP23008_IOCON]
  · simp [setupInterrupts, readRegister_eq, writeRegister_eq, u8_of_lt (bitWrite_lt _ _ _)]
    simp [u8, MCP23008_IOCON, deviceWrite]
  · simp [testBit_bitWrite]
  · simp [testBit_bitWrite]
  · simp [testBit_bitWrite]
  · intro i hi
    simp only [List.mem_cons, List.mem_singleton, List.not_mem_nil, or_false] at hi
    rcases hi with rfl | rfl | rfl | rfl | rfl <;>
      (rw [testBit_bitWrite _ _ _ _ (by decide), testBit_bitWrite _ _ _ _ (by decide),
        testBit_bitWrite _ _ _ _ (by decide), testBit_u8]
       simp)
  · decide

/-! ## Interrupt queries -/

theorem bitRead_eq (value bit : Nat) : bitRead value bit = (value.testBit bit).toNat := by
  unfold bitRead
  rw [Nat.and_one_is_mod, Nat.toNat_testBit, Nat.shiftRight_eq_div_pow]

theorem bitRead_ne_zero (value bit : Nat) :
    bitRead value bit ≠ 0 ↔ value.testBit bit = true := by
  rw [bitRead_eq]
  cases value.testBit bit <;> simp

theorem testBit_lt_of_byte {f i : Nat} (hf : f < 256) (h : f.testBit i = true) : i < 8 := by
  by_contra hge
  have h1 : 2 ^ i ≤ f := Nat.testBit_implies_ge h
  have h2 : 2 ^ 8 ≤ 2 ^ i := Nat.pow_le_pow_right (by norm_num) (by omega)
  omega

theorem scanPins_none (f : Nat) :
    ∀ n i, (∀ j, i ≤ j → j < i + n → f.testBit j = false) →
      scanPins f n i = MCP23008_INT_ERR := by
  intro n
  induction n with
  | zero => intro i _; rfl
  | succ n ih =>
      intro i h
      have hi : ¬ bitRead f i ≠ 0 := by
        rw [bitRead_ne_zero, h i (le_refl _) (by omega)]
        simp
      rw [scanPins, if_neg hi]
      exact ih (i + 1) (fun j h1 h2 => h j (by omega) (by omega))

theorem scanPins_found (f : Nat) :
    ∀ n i r, i ≤ r → r < i + n → r < 256 → f.testBit r = true →
      (∀ j, i ≤ j → j < r → f.testBit j = false) → scanPins f n i = r := by
  intro n
  induction n with
  | zero => intro i r h1 h2; omega
  | succ n ih =>
      intro i r h1 h2 h3 hr hlow
      rw [scanPins]
      by_cases hir : i = r
      · subst hir
        rw [if_pos ((bitRead_ne_zero f i).mpr hr)]
        exact u8_of_lt h3
      · have hi : ¬ bitRead f i ≠ 0 := by
          rw [bitRead_ne_zero, hlow i (le_refl _) (by omega)]
          simp
        rw [if_neg hi]
        exact ih (i + 1) r (by omega) (by omega) h3 hr
          (fun j hj1 hj2 => hlow j (by omega) hj2)

/-- Every non-zero byte has a lowest set bit, at an index below 8. -/
theorem exists_lowest_bit {f : Nat} (hf : f < 256) (hne : f ≠ 0) :
    ∃ i, i < 8 ∧ f.testBit i = true ∧ ∀ j, j < i → f.testBit j = false := by
  classical
  have hex : ∃ i, f.testBit i = true := Nat.ne_zero_implies_bit_true hne
  refine ⟨Nat.find hex, testBit_lt_of_byte hf (Nat.find_spec hex), Nat.find_spec hex, ?_⟩
  intro j hj
  have := Nat.find_min hex hj
  simpa using this

theorem getLastInterruptPin_fst (w : World) :
    (getLastInterruptPin w).1 = scanPins (u8 (w.regs MCP23008_INTF)) 8 0 := by
  simp [getLastInterruptPin, readRegister_eq]
  simp [u8, MCP23008_INTF]

theorem getLastInterruptPin_snd (w : World) :
    (getLastInterruptPin w).2 = (readRegister MCP23008_INTF w).2 := rfl

/-- C6. For every `INTF` byte `f`: when `f` is non-zero, `getLastInterruptPin()`
returns an index of at most 7 whose bit is set in `f` while every lower bit of `f` is
clear; it returns `MCP23008_INT_ERR` exactly when `f = 0`.  With `f = 0b00010100` it
returns 2. -/
theorem getLastInterruptPin_lowest (w : World) (hf : w.regs MCP23008_INTF < 256) :
    (w.regs MCP23008_INTF ≠ 0 →
        (getLastInterruptPin w).1 ≤ 7 ∧
        (w.regs MCP23008_INTF).testBit (getLastInterruptPin w).1 = true ∧
        ∀ j, j < (getLastInterruptPin w).1 → (w.regs MCP23008_INTF).testBit j = false) ∧
      ((getLastInterruptPin w).1 = MCP23008_INT_ERR ↔ w.regs MCP23008_INTF = 0) ∧
      (getLastInterruptPin
        (World.init (fun r => if r = MCP23008_INTF then 0b00010100 else 0))).1 = 2 := by
  rw [getLastInterruptPin_fst, u8_of_lt hf]
  have hfound : w.regs MCP23008_INTF ≠ 0 →
      ∃ i, i < 8 ∧ (w.regs MCP23008_INTF).testBit i = true ∧
        (∀ j, j < i → (w.regs MCP23008_INTF).testBit j = false) ∧
        scanPins (w.regs MCP23008_INTF) 8 0 = i := by
    intro hne
    obtain ⟨i, hi, hbit, hlow⟩ := exists_lowest_bit hf hne
    exact ⟨i, hi, hbit, hlow, scanPins_found _ 8 0 i (Nat.zero_le _) (by omega) (by omega)
      hbit (fun j _ hj => hlow j hj)⟩
  refine ⟨?_, ?_, by decide⟩
  · intro hne
    obtain ⟨i, hi, hbit, hlow, hscan⟩ := hfound hne
    rw [hscan]
    exact ⟨by omega, hbit, hlow⟩
  · constructor
    · intro herr
      by_contra hne
      obtain ⟨i, hi, -, -, hscan⟩ := hfound hne
      rw [hscan] at herr
      simp [MCP23008_INT_ERR] at herr
      omega
    · intro h0
      rw [h0]
      decide

/-- Witness for C6: a device whose `INTF` holds 0b00010100; the pin reported has its
bit set in `INTF`. -/
theorem getLastInterruptPin_lowest_witness :
    (World.init (fun _ => 0b00010100)).regs MCP23008_INTF < 256 ∧
      (World.init (fun _ => 0b00010100)).regs MCP23008_INTF ≠ 0 ∧
      ((World.init (fun _ => 0b00010100)).regs MCP23008_INTF).testBit
        (getLastInterruptPin (World.init (fun _ => 0b00010100))).1 = true :=
  ⟨by decide, by decide, ((getLastInterruptPin_lowest (World.init (fun _ => 0b00010100))
    (by decide)).1 (by decide)).2.1⟩

theorem getLastInterruptPin_emitted (w : World) :
    emitted w (getLastInterruptPin w).2 =
      [.beginTransmission (MCP23008_ADDRESS ||| w.i2caddr), .send 0x07, .endTransmission,
        .requestFrom (MCP23008_ADDRESS ||| w.i2caddr) 1,
        .recv (w.regs MCP23008_INTF % 256)] := by
  apply emitted_append
  rw [getLastInterruptPin_snd, readRegister_eq]
  simp [u8, MCP23008_INTF]

theorem getLastInterruptPinValue_err (w : World)
    (h : (getLastInterruptPin w).1 = MCP23008_INT_ERR) :
    getLastInterruptPinValue w = (MCP23008_INT_ERR, (getLastInterruptPin w).2) := by
  unfold getLastInterruptPinValue
  simp only []
  rw [if_neg (by simpa using h)]

theorem getLastInterruptPinValue_ok (w : World)
    (h : (getLastInterruptPin w).1 ≠ MCP23008_INT_ERR) :
    getLastInterruptPinValue w =
      (u8 (((readRegister MCP23008_INTCAP (getLastInterruptPin w).2).1 >>>
          bitForPin (getLastInterruptPin w).1) &&& 0x01),
        (readRegister MCP23008_INTCAP (getLastInterruptPin w).2).2) := by
  unfold getLastInterruptPinValue
  simp only []
  rw [if_pos h]
  rfl

/-- C7. When `INTF` reads as 0x00, `getLastInterruptPinValue()` returns
`MCP23008_INT_ERR` and what it records on the bus is the one read of `INTF` (0x07): the
register address `INTCAP` (0x08) is never sent, so `INTCAP` is not read. -/
theorem getLastInterruptPinValue_no_pending (w : World) (h0 : w.regs MCP23008_INTF = 0) :
    (getLastInterruptPinValue w).1 = MCP23008_INT_ERR ∧
      emitted w (getLastInterruptPinValue w).2 =
        [.beginTransmission (MCP23008_ADDRESS ||| w.i2caddr), .send MCP23008_INTF,
          .endTransmission, .requestFrom (MCP23008_ADDRESS ||| w.i2caddr) 1, .recv 0x00] ∧
      WireCall.send MCP23008_INTCAP ∉ emitted w (getLastInterruptPinValue w).2 := by
  have herr : (getLastInterruptPin w).1 = MCP23008_INT_ERR := by
    rw [getLastInterruptPin_fst, h0]
    decide
  have hlog : emitted w (getLastInterruptPinValue w).2 =
      [.beginTransmission (MCP23008_ADDRESS ||| w.i2caddr), .send MCP23008_INTF,
        .endTransmission, .requestFrom (MCP23008_ADDRESS ||| w.i2caddr) 1, .recv 0x00] := by
    rw [getLastInterruptPinValue_err w herr, getLastInterruptPin_emitted, h0]
    rfl
  refine ⟨by rw [getLastInterruptPinValue_err w herr], hlog, ?_⟩
  rw [hlog]
  simp [MCP23008_INTCAP, MCP23008_INTF]

/-- Witness for C7: a device whose registers all hold 0x00. -/
theorem getLastInterruptPinValue_no_pending_witness :
    (World.init (fun _ => 0)).regs MCP23008_INTF = 0 ∧
      (getLastInterruptPinValue (World.init (fun _ => 0))).1 = MCP23008_INT_ERR :=
  ⟨rfl, (getLastInterruptPinValue_no_pending (World.init (fun _ => 0)) rfl).1⟩

theorem capturedBit_eq (c i : Nat) (hi : i < 8) :
    u8 ((u8 c >>> i) &&& 0x01) = (c.testBit i).toNat := by
  have h := bitRead_eq (u8 c) i
  unfold bitRead at h
  rw [h, testBit_u8]
  have hlt : (decide (i < 8) && c.testBit i).toNat < 256 := by
    cases (decide (i < 8) && c.testBit i) <;> simp
  rw [u8_of_lt hlt]
  simp [hi]

/-- C8. For every non-zero `INTF` byte `f` and every `INTCAP` value `c`,
`getLastInterruptPinValue()` returns bit `i` of `c`, where `i` is the index of the
lowest set bit of `f`; the result is 0 or 1 and is not `MCP23008_INT_ERR`.  With
`f = 0x20` and `c = 0x00` it returns 0. -/
theorem getLastInterruptPinValue_captured (w : World) (hf : w.regs MCP23008_INTF < 256)
    (hne : w.regs MCP23008_INTF ≠ 0) :
    (∃ i, i < 8 ∧ (w.regs MCP23008_INTF).testBit i = true ∧
        (∀ j, j < i → (w.regs MCP23008_INTF).testBit j = false) ∧
        (getLastInterruptPinValue w).1 = ((w.regs MCP23008_INTCAP).testBit i).toNat) ∧
      (getLastInterruptPinValue w).1 ≤ 1 ∧
      (getLastInterruptPinValue w).1 ≠ MCP23008_INT_ERR ∧
      (getLastInterruptPinValue
        (World.init (fun r => if r = MCP23008_INTF then 0x20 else 0x00))).1 = 0 := by
  obtain ⟨i, hi, hbit, hlow⟩ := exists_lowest_bit hf hne
  have hpin : (getLastInterruptPin w).1 = i := by
    rw [getLastInterruptPin_fst, u8_of_lt hf]
    exact scanPins_found _ 8 0 i (Nat.zero_le _) (by omega) (by omega) hbit
      (fun j _ hj => hlow j hj)
  have hok : (getLastInterruptPin w).1 ≠ MCP23008_INT_ERR := by
    rw [hpin]
    simp [MCP23008_INT_ERR]
    omega
  have hval : (getLastInterruptPinValue w).1 = ((w.regs MCP23008_INTCAP).testBit i).toNat := by
    rw [getLastInterruptPinValue_ok w hok, hpin, bitForPin_of_lt hi,
      getLastInterruptPin_snd, readRegister_eq, readRegister_eq]
    have h8 : u8 MCP23008_INTCAP = MCP23008_INTCAP := by decide
    simp only [h8]
    exact capturedBit_eq _ i hi
  have hle : (getLastInterruptPinValue w).1 ≤ 1 := by
    rw [hval]
    cases (w.regs MCP23008_INTCAP).testBit i <;> simp
  refine ⟨⟨i, hi, hbit, hlow, hval⟩, hle, ?_, by decide⟩
  simp [MCP23008_INT_ERR]
  omega

/-- Witness for C8: `INTF` holds 0x20 and `INTCAP` holds 0x00, and the value reported
is at most 1. -/
theorem getLastInterruptPinValue_captured_witness :
    (World.init (fun r => if r = MCP23008_INTF then 0x20 else 0x00)).regs MCP23008_INTF
        < 256 ∧
      (World.init (fun r => if r = MCP23008_INTF then 0x20 else 0x00)).regs MCP23008_INTF
        ≠ 0 ∧
      (getLastInterruptPinValue
        (World.init (fun r => if r = MCP23008_INTF then 0x20 else 0x00))).1 ≤ 1 :=
  ⟨by decide, by decide,
    (getLastInterruptPinValue_captured
      (World.init (fun r => if r = MCP23008_INTF then 0x20 else 0x00))
      (by decide) (by decide)).2.1⟩

/-! ## Port output -/

/-- C9. For every pin `p` in 0..7, every value `d` and every `OLAT` content `o`,
`digitalWrite(p, d)` records exactly one register read, of `OLAT` (0x0A), followed by
exactly one register write, to `GPIO` (0x09); the byte written has bit `p` equal to 1
iff `d` is non-zero and every other bit equal to that bit of `o`.  `GPIO` is not read. -/
theorem digitalWrite_reads_olat_writes_gpio (p : Nat) (hp : p < 8) (d : Nat) (w : World) :
    ∃ x, emitted w (digitalWrite p d w) =
          [.beginTransmission (MCP23008_ADDRESS ||| w.i2caddr), .send 0x0A,
            .endTransmission, .requestFrom (MCP23008_ADDRESS ||| w.i2caddr) 1,
            .recv (w.regs MCP23008_OLAT % 256),
            .beginTransmission (MCP23008_ADDRESS ||| w.i2caddr), .send 0x09, .send x,
            .endTransmission] ∧
        x < 256 ∧
        x.testBit p = decide (d ≠ 0) ∧
        (∀ i, i < 8 → i ≠ p → x.testBit i = (w.regs MCP23008_OLAT).testBit i) ∧
        (digitalWrite p d w).regs MCP23008_GPIO = x ∧
        WireCall.send MCP23008_GPIO ∉ (emitted w (digitalWrite p d w)).take 5 := by
  have hlog : emitted w (digitalWrite p d w) =
      [.beginTransmission (MCP23008_ADDRESS ||| w.i2caddr), .send 0x0A,
        .endTransmission, .requestFrom (MCP23008_ADDRESS ||| w.i2caddr) 1,
        .recv (w.regs MCP23008_OLAT % 256),
        .beginTransmission (MCP23008_ADDRESS ||| w.i2caddr), .send 0x09,
        .send (bitWrite (u8 (w.regs MCP23008_OLAT)) p d), .endTransmission] := by
    apply emitted_append
    simp [digitalWrite, regForPin, readRegister_eq, writeRegister_eq,
      u8_of_lt (bitWrite_lt _ _ _), bitForPin_of_lt hp]
    simp [u8, MCP23008_OLAT, MCP23008_GPIO]
  refine ⟨bitWrite (u8 (w.regs MCP23008_OLAT)) p d, hlog, bitWrite_lt _ _ _, ?_, ?_, ?_, ?_⟩
  · rw [testBit_bitWrite _ _ _ _ hp]
    simp
  · intro i hi hip
    rw [testBit_bitWrite _ _ _ _ hi, testBit_u8]
    simp [hip, hi]
  · simp [digitalWrite, regForPin, readRegister_eq, writeRegister_eq,
      u8_of_lt (bitWrite_lt _ _ _), bitForPin_of_lt hp]
    simp [u8, MCP23008_OLAT, MCP23008_GPIO, deviceWrite]
  · rw [hlog]
    simp [ MCP23008_GPIO]

/-- Witness for C9: pin 3 driven high on a device whose registers all hold 0x00 puts
0x08 on the bus as the `GPIO` byte. -/
theorem digitalWrite_reads_olat_writes_gpio_witness :
    3 < 8 ∧
      ∃ x, emitted (World.init (fun _ => 0)) (digitalWrite 3 1 (World.init (fun _ => 0))) =
          [.beginTransmission (MCP23008_ADDRESS ||| (World.init (fun _ => 0)).i2caddr),
            .send 0x0A, .endTransmission,
            .requestFrom (MCP23008_ADDRESS ||| (World.init (fun _ => 0)).i2caddr) 1,
            .recv ((World.init (fun _ => 0)).regs MCP23008_OLAT % 256),
            .beginTransmission (MCP23008_ADDRESS ||| (World.init (fun _ => 0)).i2caddr),
            .send 0x09, .send x, .endTransmission] ∧
        x < 256 :=
  ⟨by decide,
    (digitalWrite_reads_olat_writes_gpio 3 (by decide) 1 (World.init (fun _ => 0))).imp
      (fun _ h => ⟨h.1, h.2.1⟩)⟩

/-- C10 (the code departs from it). `writeGPIO(0x55)` puts three bytes into its
transaction, the register address 0x09, the payload 0x55 and a further byte 0x00 (the
`ba >> 8` of an 8-bit argument), whereas `writeRegister(GPIO, 0x55)` sends the register
address and the one payload byte; for every argument `v` the two recorded transactions
differ. -/
theorem writeGPIO_sends_trailing_byte (w : World) :
    emitted w ( writeGPIO 0x55 w) =
        [.beginTransmission (MCP23008_ADDRESS ||| w.i2caddr), .send 0x09, .send 0x55,
          .send 0x00, .endTransmission] ∧
      emitted w (writeRegister MCP23008_GPIO 0x55 w) =
        [.beginTransmission (MCP23008_ADDRESS ||| w.i2caddr), .send 0x09, .send 0x55,
          .endTransmission] ∧
      ∀ v, emitted w ( writeGPIO v w) ≠ emitted w (writeRegister MCP23008_GPIO v w) := by
  have h1 : ∀ v, emitted w ( writeGPIO v w) =
      [.beginTransmission (MCP23008_ADDRESS ||| w.i2caddr), .send MCP23008_GPIO,
        .send (u8 (v &&& 0xFF)), .send (u8 (v >>> 8)), .endTransmission] := by
    intro v
    apply emitted_append
    rw [writeGPIO_eq]
  have h2 : ∀ v, emitted w (writeRegister MCP23008_GPIO v w) =
      [.beginTransmission (MCP23008_ADDRESS ||| w.i2caddr), .send (u8 MCP23008_GPIO),
        .send (u8 v), .endTransmission] := by
    intro v
    apply emitted_append
    rw [writeRegister_eq]
  refine ⟨by rw [h1]; rfl, by rw [h2]; rfl, ?_⟩
  intro v h
  have hlen := congrArg List.length h
  rw [h1, h2] at hlen
  simp at hlen

/-! ## Pin input -/

theorem digitalRead_eq (pin : Nat) (w : World) :
    digitalRead pin w =
      (u8 (((readRegister MCP23008_GPIO w).1 >>> bitForPin pin) &&& 0x1),
        (readRegister MCP23008_GPIO w).2) := rfl

theorem readRegister_emitted (addr : Nat) (w : World) :
    emitted w (readRegister addr w).2 =
      readTxn (MCP23008_ADDRESS ||| w.i2caddr) (u8 addr) (u8 (w.regs (u8 addr))) := by
  apply emitted_append
  rw [readRegister_eq]
  rfl

/-- C11. For every pin `p` in 0..7 and every `GPIO` content `g`, `digitalRead(p)`
returns bit `p` of `g`, that is `(g >> p) & 1`; the result is 0 or 1, and the one
register read it records is of `GPIO` (0x09), not of `OLAT`. -/
theorem digitalRead_returns_gpio_bit (p : Nat) (hp : p < 8) (w : World) :
    (digitalRead p w).1 = ((w.regs MCP23008_GPIO) >>> p) &&& 1 ∧
      (digitalRead p w).1 = ((w.regs MCP23008_GPIO).testBit p).toNat ∧
      (digitalRead p w).1 ≤ 1 ∧
      emitted w (digitalRead p w).2 =
        readTxn (MCP23008_ADDRESS ||| w.i2caddr) 0x09 (w.regs MCP23008_GPIO % 256) ∧
      WireCall.send MCP23008_OLAT ∉ emitted w (digitalRead p w).2 := by
  have hval : (digitalRead p w).1 = ((w.regs MCP23008_GPIO).testBit p).toNat := by
    rw [digitalRead_eq, readRegister_eq, bitForPin_of_lt hp]
    have h9 : u8 MCP23008_GPIO = MCP23008_GPIO := by decide
    simp only [h9]
    exact capturedBit_eq _ p hp
  have hlog : emitted w (digitalRead p w).2 =
      readTxn (MCP23008_ADDRESS ||| w.i2caddr) 0x09 (w.regs MCP23008_GPIO % 256) := by
    rw [digitalRead_eq, readRegister_emitted]
    rfl
  refine ⟨?_, hval, ?_, hlog, ?_⟩
  · rw [hval, ← bitRead_eq]
    rfl
  · rw [hval]
    cases (w.regs MCP23008_GPIO).testBit p <;> simp
  · rw [hlog]
    simp [readTxn, MCP23008_OLAT]

/-- Witness for C11: pin 0 read from a device whose registers all hold 0x01. -/
theorem digitalRead_returns_gpio_bit_witness :
    0 < 8 ∧ (digitalRead 0 (World.init (fun _ => 0x01))).1 =
      (((World.init (fun _ => 0x01)).regs MCP23008_GPIO) >>> 0) &&& 1 :=
  ⟨by decide, (digitalRead_returns_gpio_bit 0 (by decide) (World.init (fun _ => 0x01))).1⟩

/-! ## Out-of-range pins -/

theorem bitForPin_mod (p : Nat) : bitForPin (p % 8) = bitForPin p := by
  unfold bitForPin
  rw [Nat.mod_mod]

/-- C12. For every pin argument `p`, in range or not, each per-pin operation (`pinMode`,
`pullUp`, `digitalRead`, `digitalWrite`, `setupInterruptPin`) called with `p` gives the
same result and the same world (the same recorded bus calls and the same register
contents) as when called with `p mod 8`; the bit position it addresses is below 8. -/
theorem pin_reduced_mod_8 (A : Arduino) (p d : Nat) (w : World) :
    pinMode A p d w = pinMode A (p % 8) d w ∧
      pullUp p d w = pullUp (p % 8) d w ∧
      digitalRead p w = digitalRead (p % 8) w ∧
      digitalWrite p d w = digitalWrite (p % 8) d w ∧
      setupInterruptPin A p d w = setupInterruptPin A (p % 8) d w ∧
      bitForPin p = p % 8 ∧ bitForPin p < 8 := by
  refine ⟨?_, ?_, ?_, ?_, ?_, ?_, bitForPin_lt p⟩
  · simp only [pinMode, updateRegisterBit, regForPin, bitForPin_mod]
  · simp only [pullUp, updateRegisterBit, regForPin, bitForPin_mod]
  · simp only [digitalRead, regForPin, bitForPin_mod]
  · simp only [digitalWrite, regForPin, bitForPin_mod]
  · simp only [setupInterruptPin, updateRegisterBit, regForPin, bitForPin_mod]
  · unfold bitForPin u8
    omega

/-! ## Read-modify-write of one bit -/

theorem updateRegisterBit_emitted (pin pValue portAddr : Nat) (w : World) :
    emitted w (updateRegisterBit pin pValue portAddr w) =
      readTxn (MCP23008_ADDRESS ||| w.i2caddr) (u8 portAddr) (u8 (w.regs (u8 portAddr))) ++
        writeTxn (MCP23008_ADDRESS ||| w.i2caddr) (u8 portAddr)
          (bitWrite (u8 (w.regs (u8 portAddr))) (bitForPin pin) pValue) := by
  apply emitted_append
  rw [updateRegisterBit_eq]
  rfl

/-- C13. For every pin `p` in 0..7 and every direction token `d`, `pinMode(p, d)` reads
`IODIR` and writes it back with bit `p` set to 1 when `d` equals the `INPUT` token and
cleared to 0 for every other `d`, whether it is the `OUTPUT` token or not; all other
bits of `IODIR` are unchanged. -/
theorem pinMode_direction_bit (A : Arduino) (p : Nat) (hp : p < 8) (d : Nat) (w : World) :
    ∃ x, emitted w (pinMode A p d w) =
          readTxn (MCP23008_ADDRESS ||| w.i2caddr) 0x00 (w.regs MCP23008_IODIR % 256) ++
            writeTxn (MCP23008_ADDRESS ||| w.i2caddr) 0x00 x ∧
        (pinMode A p d w).regs MCP23008_IODIR = x ∧
        x.testBit p = decide (d = A.INPUT) ∧
        ∀ i, i < 8 → i ≠ p → x.testBit i = (w.regs MCP23008_IODIR).testBit i := by
  refine ⟨bitWrite (u8 (w.regs MCP23008_IODIR)) p (if d = A.INPUT then 1 else 0),
    ?_, ?_, ?_, ?_⟩
  · unfold pinMode
    rw [updateRegisterBit_emitted, bitForPin_of_lt hp]
    rfl
  · rw [pinMode_regs, bitForPin_of_lt hp]
  · rw [testBit_bitWrite _ _ _ _ hp]
    by_cases h : d = A.INPUT <;> simp [h]
  · intro i hi hip
    rw [testBit_bitWrite _ _ _ _ hi, testBit_u8]
    simp [hip, hi]

/-- Witness for C13: on the AVR core the token 7, which is neither `INPUT` nor
`OUTPUT`, clears bit 3 of an `IODIR` that held 0xFF. -/
theorem pinMode_direction_bit_witness :
    3 < 8 ∧
      ∃ x, emitted (World.init (fun _ => 0xFF)) (pinMode avr 3 7 (World.init (fun _ => 0xFF))) =
          readTxn (MCP23008_ADDRESS ||| (World.init (fun _ => 0xFF)).i2caddr) 0x00
              ((World.init (fun _ => 0xFF)).regs MCP23008_IODIR % 256) ++
            writeTxn (MCP23008_ADDRESS ||| (World.init (fun _ => 0xFF)).i2caddr) 0x00 x ∧
        x.testBit 3 = decide (7 = avr.INPUT) :=
  ⟨by decide,
    (pinMode_direction_bit avr 3 (by decide) 7 (World.init (fun _ => 0xFF))).imp
      (fun _ h => ⟨h.1, h.2.2.1⟩)⟩

/-! ## Truthiness of written values -/

theorem bitWrite_truthy (v b d : Nat) (hd : d ≠ 0) : bitWrite v b d = bitWrite v b 1 := by
  unfold bitWrite
  simp [hd]

theorem digitalWrite_regs (p d : Nat) (w : World) :
    (digitalWrite p d w).regs MCP23008_GPIO =
      bitWrite (u8 (w.regs MCP23008_OLAT)) (bitForPin p) d := by
  simp [digitalWrite, regForPin, readRegister_eq, writeRegister_eq,
    u8_of_lt (bitWrite_lt _ _ _)]
  simp [u8, MCP23008_OLAT, MCP23008_GPIO, deviceWrite]

theorem pullUp_regs (p d : Nat) (w : World) :
    (pullUp p d w).regs MCP23008_GPPU =
      bitWrite (u8 (w.regs MCP23008_GPPU)) (bitForPin p) d :=
  updateRegisterBit_regs_same p d MCP23008_GPPU (by decide) w

/-- C14. For every pin `p` in 0..7 and every non-zero value `d`, `pullUp(p, d)` does
exactly what `pullUp(p, 1)` does and `digitalWrite(p, d)` exactly what
`digitalWrite(p, 1)` does: the byte written is the register read (`GPPU`, respectively
`OLAT`) with bit `p` set; with `d = 0` bit `p` is cleared.  The even value 2 sets the
bit, so the value counts by truthiness and not by its low bit. -/
theorem write_value_by_truthiness (p : Nat) (hp : p < 8) (d : Nat) (hd : d ≠ 0)
    (w : World) :
    pullUp p d w = pullUp p 1 w ∧
      digitalWrite p d w = digitalWrite p 1 w ∧
      (((pullUp p d w).regs MCP23008_GPPU).testBit p = true ∧
        ∀ i, i < 8 → i ≠ p →
          ((pullUp p d w).regs MCP23008_GPPU).testBit i = (w.regs MCP23008_GPPU).testBit i) ∧
      (((digitalWrite p d w).regs MCP23008_GPIO).testBit p = true ∧
        ∀ i, i < 8 → i ≠ p →
          ((digitalWrite p d w).regs MCP23008_GPIO).testBit i =
            (w.regs MCP23008_OLAT).testBit i) ∧
      ((pullUp p 0 w).regs MCP23008_GPPU).testBit p = false ∧
      ((digitalWrite p 0 w).regs MCP23008_GPIO).testBit p = false ∧
      ((pullUp p 2 w).regs MCP23008_GPPU).testBit p = true ∧
      ((digitalWrite p 2 w).regs MCP23008_GPIO).testBit p = true := by
  refine ⟨?_, ?_, ⟨?_, ?_⟩, ⟨?_, ?_⟩, ?_, ?_, ?_, ?_⟩
  · simp only [pullUp, updateRegisterBit, bitWrite_truthy _ _ d hd]
  · simp only [digitalWrite, bitWrite_truthy _ _ d hd]
  · rw [pullUp_regs, bitForPin_of_lt hp, testBit_bitWrite _ _ _ _ hp]
    simp [hd]
  · intro i hi hip
    rw [pullUp_regs, bitForPin_of_lt hp, testBit_bitWrite _ _ _ _ hi, testBit_u8]
    simp [hip, hi]
  · rw [digitalWrite_regs, bitForPin_of_lt hp, testBit_bitWrite _ _ _ _ hp]
    simp [hd]
  · intro i hi hip
    rw [digitalWrite_regs, bitForPin_of_lt hp, testBit_bitWrite _ _ _ _ hi, testBit_u8]
    simp [hip, hi]
  · rw [pullUp_regs, bitForPin_of_lt hp, testBit_bitWrite _ _ _ _ hp]
    simp
  · rw [digitalWrite_regs, bitForPin_of_lt hp, testBit_bitWrite _ _ _ _ hp]
    simp
  · rw [pullUp_regs, bitForPin_of_lt hp, testBit_bitWrite _ _ _ _ hp]
    simp
  · rw [digitalWrite_regs, bitForPin_of_lt hp, testBit_bitWrite _ _ _ _ hp]
    simp

/-- Witness for C14: pin 5 and the even value 0x80 on a device whose registers all
hold 0x00. -/
theorem write_value_by_truthiness_witness :
    5 < 8 ∧ 0x80 ≠ 0 ∧
      pullUp 5 0x80 (World.init (fun _ => 0)) = pullUp 5 1 (World.init (fun _ => 0)) ∧
      digitalWrite 5 0x80 (World.init (fun _ => 0)) =
        digitalWrite 5 1 (World.init (fun _ => 0)) :=
  ⟨by decide, by decide,
    (write_value_by_truthiness 5 (by decide) 0x80 (by decide) (World.init (fun _ => 0))).1,
    (write_value_by_truthiness 5 (by decide) 0x80 (by decide) (World.init (fun _ => 0))).2.1⟩

/-! ## Whole-port read -/

/-- C16. For every driver state and every `GPIO` content `g`, `readGPIO()` gives the
same byte and the same world (the same recorded bus calls) as `readRegister(GPIO)`: a
single one-byte read of register 0x09 that returns `g`. -/
theorem readGPIO_is_readRegister (w : World) :
    readGPIO w = readRegister MCP23008_GPIO w ∧
      emitted w ( readGPIO w).2 = emitted w (readRegister MCP23008_GPIO w).2 ∧
      emitted w ( readGPIO w).2 =
        readTxn (MCP23008_ADDRESS ||| w.i2caddr) 0x09 (w.regs MCP23008_GPIO % 256) ∧
      ( readGPIO w).1 = w.regs MCP23008_GPIO % 256 := by
  have h : readGPIO w = readRegister MCP23008_GPIO w := rfl
  refine ⟨h, by rw [h], ?_, ?_⟩
  · rw [h, readRegister_emitted]
    rfl
  · rw [h, readRegister_eq]
    rfl

/-! ## Scenario S1 -/

theorem digitalWrite_eq (pin d : Nat) (w : World) :
    digitalWrite pin d w =
        { w with ptr := MCP23008_GPIO, txBuf := [], rxBuf := [],
                 regs := deviceWrite w.regs MCP23008_GPIO
                   (bitWrite (u8 (w.regs MCP23008_OLAT)) (bitForPin pin) d)
                 log := w.log ++
                   (readTxn (MCP23008_ADDRESS ||| w.i2caddr) MCP23008_OLAT
                      (u8 (w.regs MCP23008_OLAT)) ++
                    writeTxn (MCP23008_ADDRESS ||| w.i2caddr) MCP23008_GPIO
                      (bitWrite (u8 (w.regs MCP23008_OLAT)) (bitForPin pin) d)) } := by
  simp [digitalWrite, regForPin, readRegister_eq, writeRegister_eq,
    u8_of_lt (bitWrite_lt _ _ _), readTxn, writeTxn]
  simp [u8, MCP23008_OLAT, MCP23008_GPIO]

/-- C15. Scenario S1 on a device whose `OLAT` starts at 0x00, whose reads return the
last value written and whose `GPIO` writes load `OLAT`: `begin(0)`,
`pinMode(3, OUTPUT)`, `digitalWrite(3, 1)`, `digitalWrite(3, 0)` record, in order, the
write `IODIR = 0xFF`, the read of `IODIR` and the write `IODIR = 0xF7`, a read of `OLAT`
returning 0x00 and the write `GPIO = 0x08`, a read of `OLAT` returning 0x08 and the
write `GPIO = 0x00`; the register writes are those four, in that order. -/
theorem scenario_led_blink (A : Arduino) (hio : A.OUTPUT ≠ A.INPUT) (w : World)
    (holat : w.regs MCP23008_OLAT = 0x00) :
    emitted w (runOps A [Op.begin 0, Op.pinMode 3 A.OUTPUT, Op.digitalWrite 3 1,
        Op.digitalWrite 3 0] w) =
      writeTxn 0x20 0x00 0xFF ++ readTxn 0x20 0x00 0xFF ++ writeTxn 0x20 0x00 0xF7 ++
        readTxn 0x20 0x0A 0x00 ++ writeTxn 0x20 0x09 0x08 ++
        readTxn 0x20 0x0A 0x08 ++ writeTxn 0x20 0x09 0x00 ∧
    registerWrites (emitted w (runOps A [Op.begin 0, Op.pinMode 3 A.OUTPUT,
        Op.digitalWrite 3 1, Op.digitalWrite 3 0] w)) [] =
      [(0x00, 0xFF), (0x00, 0xF7), (0x09, 0x08), (0x09, 0x00)] := by
  have hlog : emitted w (runOps A [Op.begin 0, Op.pinMode 3 A.OUTPUT, Op.digitalWrite 3 1,
        Op.digitalWrite 3 0] w) =
      writeTxn 0x20 0x00 0xFF ++ readTxn 0x20 0x00 0xFF ++ writeTxn 0x20 0x00 0xF7 ++
        readTxn 0x20 0x0A 0x00 ++ writeTxn 0x20 0x09 0x08 ++
        readTxn 0x20 0x0A 0x08 ++ writeTxn 0x20 0x09 0x00 := by
    apply emitted_append
    have b1 : bitWrite 255 3 0 = 0xF7 := by decide
    have b2 : bitWrite 0 3 1 = 0x08 := by decide
    have b3 : bitWrite 8 3 0 = 0x00 := by decide
    have h3 : bitForPin 3 = 3 := by decide
    have h10 : w.regs 10 = 0 := holat
    simp [runOps, Op.run, begin, pinMode, digitalWrite_eq, updateRegisterBit_eq,
      writeRegister_eq, hio, h3]
    simp [u8, MCP23008_IODIR, MCP23008_OLAT, MCP23008_GPIO, MCP23008_ADDRESS, deviceWrite,
      h10, b1, b2, b3, readTxn, writeTxn]
  refine ⟨hlog, ?_⟩
  rw [hlog]
  rfl

/-- Witness for C15: the AVR tokens and a device whose registers all hold 0x00. -/
theorem scenario_led_blink_witness :
    avr.OUTPUT ≠ avr.INPUT ∧ (World.init (fun _ => 0)).regs MCP23008_OLAT = 0x00 ∧
      registerWrites (emitted (World.init (fun _ => 0))
        (runOps avr [Op.begin 0, Op.pinMode 3 avr.OUTPUT, Op.digitalWrite 3 1,
          Op.digitalWrite 3 0] (World.init (fun _ => 0)))) [] =
        [(0x00, 0xFF), (0x00, 0xF7), (0x09, 0x08), (0x09, 0x00)] :=
  ⟨by decide, rfl, (scenario_led_blink avr (by decide) (World.init (fun _ => 0)) rfl).2⟩

/-! ## Per-pin interrupt arming, transaction by transaction -/

theorem updateRegisterBit_log (pin pValue portAddr : Nat) (w : World) :
    (updateRegisterBit pin pValue portAddr w).log =
      w.log ++ (readTxn (MCP23008_ADDRESS ||| w.i2caddr) (u8 portAddr)
          (u8 (w.regs (u8 portAddr))) ++
        writeTxn (MCP23008_ADDRESS ||| w.i2caddr) (u8 portAddr)
          (bitWrite (u8 (w.regs (u8 portAddr))) (bitForPin pin) pValue)) := by
  rw [updateRegisterBit_eq]
  rfl

theorem updateRegisterBit_i2caddr (pin pValue portAddr : Nat) (w : World) :
    (updateRegisterBit pin pValue portAddr w).i2caddr = w.i2caddr := by
  rw [updateRegisterBit_eq]

theorem testBit_bitWrite_other (v b x i : Nat) (hi : i < 8) (hib : i ≠ b) :
    (bitWrite (u8 v) b x).testBit i = v.testBit i := by
  rw [testBit_bitWrite _ _ _ _ hi, testBit_u8]
  simp [hib, hi]

/-- C17. For every pin `p` and mode `m`, `setupInterruptPin(p, m)` records exactly three
read-modify-write pairs, on `INTCON` (0x04), then `DEFVAL` (0x03), then `GPINTEN`
(0x02); its register writes are those three and no other register changes; in each of
the three bytes written every bit other than bit `p mod 8` is the bit that was read. -/
theorem setupInterruptPin_three_updates (A : Arduino) (p m : Nat) (w : World) :
    ∃ x1 x2 x3,
      emitted w (setupInterruptPin A p m w) =
          readTxn (MCP23008_ADDRESS ||| w.i2caddr) 0x04 (w.regs MCP23008_INTCON % 256) ++
          writeTxn (MCP23008_ADDRESS ||| w.i2caddr) 0x04 x1 ++
          readTxn (MCP23008_ADDRESS ||| w.i2caddr) 0x03 (w.regs MCP23008_DEFVAL % 256) ++
          writeTxn (MCP23008_ADDRESS ||| w.i2caddr) 0x03 x2 ++
          readTxn (MCP23008_ADDRESS ||| w.i2caddr) 0x02 (w.regs MCP23008_GPINTEN % 256) ++
          writeTxn (MCP23008_ADDRESS ||| w.i2caddr) 0x02 x3 ∧
        registerWrites (emitted w (setupInterruptPin A p m w)) [] =
          [(0x04, x1), (0x03, x2), (0x02, x3)] ∧
        (setupInterruptPin A p m w).regs MCP23008_INTCON = x1 ∧
        (setupInterruptPin A p m w).regs MCP23008_DEFVAL = x2 ∧
        (setupInterruptPin A p m w).regs MCP23008_GPINTEN = x3 ∧
        (∀ r, r ≠ MCP23008_INTCON → r ≠ MCP23008_DEFVAL → r ≠ MCP23008_GPINTEN →
          (setupInterruptPin A p m w).regs r = w.regs r) ∧
        (∀ i, i < 8 → i ≠ p % 8 →
          x1.testBit i = (w.regs MCP23008_INTCON).testBit i ∧
          x2.testBit i = (w.regs MCP23008_DEFVAL).testBit i ∧
          x3.testBit i = (w.regs MCP23008_GPINTEN).testBit i) := by
  have hb : bitForPin p = p % 8 := by
    unfold bitForPin u8
    omega
  obtain ⟨r1, r2, r3⟩ := setupInterruptPin_regs A p m w
  have hlog : emitted w (setupInterruptPin A p m w) =
      readTxn (MCP23008_ADDRESS ||| w.i2caddr) 0x04 (w.regs MCP23008_INTCON % 256) ++
      writeTxn (MCP23008_ADDRESS ||| w.i2caddr) 0x04
        (bitWrite (u8 (w.regs MCP23008_INTCON)) (bitForPin p)
          (if m ≠ A.CHANGE then 1 else 0)) ++
      readTxn (MCP23008_ADDRESS ||| w.i2caddr) 0x03 (w.regs MCP23008_DEFVAL % 256) ++
      writeTxn (MCP23008_ADDRESS ||| w.i2caddr) 0x03
        (bitWrite (u8 (w.regs MCP23008_DEFVAL)) (bitForPin p)
          (if m = A.FALLING then 1 else 0)) ++
      readTxn (MCP23008_ADDRESS ||| w.i2caddr) 0x02 (w.regs MCP23008_GPINTEN % 256) ++
      writeTxn (MCP23008_ADDRESS ||| w.i2caddr) 0x02
        (bitWrite (u8 (w.regs MCP23008_GPINTEN)) (bitForPin p) A.HIGH) := by
    apply emitted_append
    unfold setupInterruptPin
    simp only [updateRegisterBit_log, updateRegisterBit_i2caddr]
    have e4 : u8 MCP23008_INTCON = 0x04 := by decide
    have e3 : u8 MCP23008_DEFVAL = 0x03 := by decide
    have e2 : u8 MCP23008_GPINTEN = 0x02 := by decide
    have g3 : (updateRegisterBit p (if m ≠ A.CHANGE then 1 else 0) MCP23008_INTCON w).regs 3
        = w.regs MCP23008_DEFVAL :=
      updateRegisterBit_regs_other _ _ _ _ (by decide) (by decide) (by decide) w
    have g2 : (updateRegisterBit p (if m = A.FALLING then 1 else 0) MCP23008_DEFVAL
        (updateRegisterBit p (if m ≠ A.CHANGE then 1 else 0) MCP23008_INTCON w)).regs 2
        = w.regs MCP23008_GPINTEN := by
      rw [updateRegisterBit_regs_other _ _ _ _ (by decide) (by decide) (by decide),
        updateRegisterBit_regs_other _ _ _ _ (by decide) (by decide) (by decide)]
      rfl
    simp only [e4, e3, e2, g3, g2, List.append_assoc]
    rfl
  refine ⟨_, _, _, hlog, ?_, r1, r2, r3, ?_, ?_⟩
  · rw [hlog]
    rfl
  · intro r h4 h3 h2
    unfold setupInterruptPin
    rw [updateRegisterBit_regs_other _ _ _ _ (by decide) h2 (by decide),
      updateRegisterBit_regs_other _ _ _ _ (by decide) h3 (by decide),
      updateRegisterBit_regs_other _ _ _ _ (by decide) h4 (by decide)]
  · intro i hi hip
    rw [hb]
    exact ⟨testBit_bitWrite_other _ _ _ _ hi hip, testBit_bitWrite_other _ _ _ _ hi hip,
      testBit_bitWrite_other _ _ _ _ hi hip⟩

/-! ## Registers left alone -/

theorem readRegister_regs (addr : Nat) (w : World) :
    (readRegister addr w).2.regs = w.regs := by
  rw [readRegister_eq]

theorem readRegister_snd_log (addr : Nat) (w : World) :
    (readRegister addr w).2.log =
      w.log ++ readTxn (MCP23008_ADDRESS ||| w.i2caddr) (u8 addr) (u8 (w.regs (u8 addr))) := by
  rw [readRegister_eq]
  rfl

theorem readRegister_i2caddr (addr : Nat) (w : World) :
    (readRegister addr w).2.i2caddr = w.i2caddr := by
  rw [readRegister_eq]

theorem getLastInterruptPinValue_regs (w : World) :
    (getLastInterruptPinValue w).2.regs = w.regs := by
  by_cases h : (getLastInterruptPin w).1 = MCP23008_INT_ERR
  · rw [getLastInterruptPinValue_err w h, getLastInterruptPin_snd, readRegister_regs]
  · rw [getLastInterruptPinValue_ok w h, readRegister_regs, getLastInterruptPin_snd,
      readRegister_regs]

theorem writeRegister_regs_other (regAddr regValue r : Nat) (hreg : regAddr < 256)
    (hr : r ≠ regAddr) (hg : regAddr ≠ MCP23008_GPIO) (w : World) :
    (writeRegister regAddr regValue w).regs r = w.regs r := by
  simp [writeRegister_eq, u8_of_lt hreg, deviceWrite, hr, hg]

/-- What one pin-level operation does to `GPINTEN`: it leaves the register as it was,
or it rewrites it with one bit set to the truth value of `HIGH`. -/
theorem run_gpinten (A : Arduino) (op : Op) (hop : op.isPrimitive = false) (w : World) :
    (op.run A w).2.regs MCP23008_GPINTEN = w.regs MCP23008_GPINTEN ∨
      ∃ pin, (op.run A w).2.regs MCP23008_GPINTEN =
        bitWrite (u8 (w.regs MCP23008_GPINTEN)) (bitForPin pin) A.HIGH := by
  cases op with
  | begin addr =>
      exact Or.inl (writeRegister_regs_other _ _ _ (by decide) (by decide) (by decide) _)
  | beginDefault =>
      exact Or.inl (writeRegister_regs_other _ _ _ (by decide) (by decide) (by decide) _)
  | pinMode p d =>
      exact Or.inl
        (updateRegisterBit_regs_other _ _ _ _ (by decide) (by decide) (by decide) w)
  | readGPIO => exact Or.inl (congrFun (readRegister_regs _ w) _)
  | writeGPIO ba =>
      left
      simp only [Op.run, writeGPIO_eq]
      simp [deviceWrite, MCP23008_GPINTEN, MCP23008_GPIO, MCP23008_OLAT]
  | digitalWrite pin d =>
      left
      simp only [Op.run, digitalWrite_eq]
      simp [deviceWrite, MCP23008_GPINTEN, MCP23008_GPIO, MCP23008_OLAT]
  | pullUp p d =>
      exact Or.inl
        (updateRegisterBit_regs_other _ _ _ _ (by decide) (by decide) (by decide) w)
  | digitalRead pin => exact Or.inl (congrFun (readRegister_regs _ w) _)
  | setupInterrupts m o p =>
      left
      simp only [Op.run, setupInterrupts]
      rw [writeRegister_regs_other _ _ _ (by decide) (by decide) (by decide),
        readRegister_regs]
  | setupInterruptPin pin mode => exact Or.inr ⟨pin, (setupInterruptPin_regs A pin mode w).2.2⟩
  | getLastInterruptPin => exact Or.inl (congrFun (readRegister_regs _ w) _)
  | getLastInterruptPinValue => exact Or.inl (congrFun (getLastInterruptPinValue_regs w) _)
  | readRegister addr => simp [Op.isPrimitive] at hop
  | writeRegister regAddr regValue => simp [Op.isPrimitive] at hop
  | updateRegisterBit pin pValue portAddr => simp [Op.isPrimitive] at hop

theorem run_keeps_armed (A : Arduino) (hhigh : A.HIGH ≠ 0) (op : Op)
    (hop : op.isPrimitive = false) (w : World) (i : Nat) (hi : i < 8)
    (hbit : (w.regs MCP23008_GPINTEN).testBit i = true) :
    ((op.run A w).2.regs MCP23008_GPINTEN).testBit i = true := by
  rcases run_gpinten A op hop w with h | ⟨pin, h⟩
  · rw [h]
    exact hbit
  · rw [h, testBit_bitWrite _ _ _ _ hi, testBit_u8]
    by_cases hib : i = bitForPin pin
    · simp [hib, hhigh]
    · simp [hib, hi, hbit]

/-- C18. Against a device whose reads return the last value written, no driver
operation (`begin`, `pinMode`, `pullUp`, `digitalRead`, `digitalWrite`, `readGPIO`,
`writeGPIO`, `setupInterrupts`, `setupInterruptPin`, `getLastInterruptPin`,
`getLastInterruptPinValue`), with any arguments, clears a `GPINTEN` bit: a bit that is 1
before a call is 1 after it, and so it is after any sequence of such calls. -/
theorem gpinten_never_cleared (A : Arduino) (hhigh : A.HIGH ≠ 0) (i : Nat) (hi : i < 8) :
    (∀ (op : Op) (w : World), op.isPrimitive = false →
        (w.regs MCP23008_GPINTEN).testBit i = true →
        ((op.run A w).2.regs MCP23008_GPINTEN).testBit i = true) ∧
      (∀ (ops : List Op) (w : World), (∀ op ∈ ops, op.isPrimitive = false) →
        (w.regs MCP23008_GPINTEN).testBit i = true →
        ((runOps A ops w).regs MCP23008_GPINTEN).testBit i = true) := by
  refine ⟨fun op w hop hbit => run_keeps_armed A hhigh op hop w i hi hbit, ?_⟩
  intro ops
  induction ops with
  | nil => intro w _ hbit; exact hbit
  | cons op ops ih =>
      intro w hops hbit
      exact ih _ (fun o ho => hops o (List.mem_cons_of_mem _ ho))
        (run_keeps_armed A hhigh op (hops op (List.mem_cons_self _ _)) w i hi hbit)

/-- Witness for C18: on the AVR core, pin 5 armed in a device whose `GPINTEN` holds 0x20
stays armed through `begin`, a port write and a re-arming of pin 2. -/
theorem gpinten_never_cleared_witness :
    avr.HIGH ≠ 0 ∧ 5 < 8 ∧
      ((runOps avr [Op.begin 0, Op.writeGPIO 0x00, Op.setupInterruptPin 2 avr.CHANGE]
        (World.init (fun _ => 0x20))).regs MCP23008_GPINTEN).testBit 5 = true :=
  ⟨by decide, by decide,
    (gpinten_never_cleared avr (by decide) 5 (by decide)).2
      [Op.begin 0, Op.writeGPIO 0x00, Op.setupInterruptPin 2 avr.CHANGE]
      (World.init (fun _ => 0x20)) (by decide) (by decide)⟩

/-! ## Queries -/

theorem getLastInterruptPinValue_emitted (w : World) :
    emitted w (getLastInterruptPinValue w).2 =
        readTxn (MCP23008_ADDRESS ||| w.i2caddr) 0x07 (w.regs MCP23008_INTF % 256) ∨
      emitted w (getLastInterruptPinValue w).2 =
        readTxn (MCP23008_ADDRESS ||| w.i2caddr) 0x07 (w.regs MCP23008_INTF % 256) ++
          readTxn (MCP23008_ADDRESS ||| w.i2caddr) 0x08 (w.regs MCP23008_INTCAP % 256) := by
  by_cases h : (getLastInterruptPin w).1 = MCP23008_INT_ERR
  · left
    rw [getLastInterruptPinValue_err w h, getLastInterruptPin_snd, readRegister_emitted]
    rfl
  · right
    apply emitted_append
    rw [getLastInterruptPinValue_ok w h, getLastInterruptPin_snd, readRegister_snd_log,
      readRegister_snd_log, readRegister_i2caddr, readRegister_regs, List.append_assoc]
    rfl

/-- C19. The query operations `digitalRead`, `readGPIO`, `getLastInterruptPin` and
`getLastInterruptPinValue` record no register write, for any input and any register
contents: what they record is one register read (of `GPIO`, `GPIO`, `INTF`) or, for
`getLastInterruptPinValue`, the read of `INTF` followed or not by a read of `INTCAP`,
so the only bytes sent are those register addresses, and the register contents of the
device are the same after the call as before. -/
theorem queries_write_nothing (p : Nat) (w : World) :
    ((digitalRead p w).2.regs = w.regs ∧
        emitted w (digitalRead p w).2 =
          readTxn (MCP23008_ADDRESS ||| w.i2caddr) 0x09 (w.regs MCP23008_GPIO % 256) ∧
        registerWrites (emitted w (digitalRead p w).2) [] = []) ∧
      (( readGPIO w).2.regs = w.regs ∧
        emitted w ( readGPIO w).2 =
          readTxn (MCP23008_ADDRESS ||| w.i2caddr) 0x09 (w.regs MCP23008_GPIO % 256) ∧
        registerWrites (emitted w ( readGPIO w).2) [] = []) ∧
      ((getLastInterruptPin w).2.regs = w.regs ∧
        emitted w (getLastInterruptPin w).2 =
          readTxn (MCP23008_ADDRESS ||| w.i2caddr) 0x07 (w.regs MCP23008_INTF % 256) ∧
        registerWrites (emitted w (getLastInterruptPin w).2) [] = []) ∧
      ((getLastInterruptPinValue w).2.regs = w.regs ∧
        (emitted w (getLastInterruptPinValue w).2 =
            readTxn (MCP23008_ADDRESS ||| w.i2caddr) 0x07 (w.regs MCP23008_INTF % 256) ∨
          emitted w (getLastInterruptPinValue w).2 =
            readTxn (MCP23008_ADDRESS ||| w.i2caddr) 0x07 (w.regs MCP23008_INTF % 256) ++
              readTxn (MCP23008_ADDRESS ||| w.i2caddr) 0x08
                (w.regs MCP23008_INTCAP % 256)) ∧
        registerWrites (emitted w (getLastInterruptPinValue w).2) [] = []) := by
  have h9 : emitted w (readRegister MCP23008_GPIO w).2 =
      readTxn (MCP23008_ADDRESS ||| w.i2caddr) 0x09 (w.regs MCP23008_GPIO % 256) := by
    rw [readRegister_emitted]
    rfl
  have h7 : emitted w (readRegister MCP23008_INTF w).2 =
      readTxn (MCP23008_ADDRESS ||| w.i2caddr) 0x07 (w.regs MCP23008_INTF % 256) := by
    rw [readRegister_emitted]
    rfl
  refine ⟨⟨?_, ?_, ?_⟩, ⟨?_, ?_, ?_⟩, ⟨?_, ?_, ?_⟩, ⟨?_, ?_, ?_⟩⟩
  · rw [digitalRead_eq, readRegister_regs]
  · rw [digitalRead_eq, h9]
  · rw [digitalRead_eq, h9]
    rfl
  · rw [readGPIO_eq, readRegister_regs]
  · rw [readGPIO_eq, h9]
  · rw [readGPIO_eq, h9]
    rfl
  · rw [getLastInterruptPin_snd, readRegister_regs]
  · rw [getLastInterruptPin_snd, h7]
  · rw [getLastInterruptPin_snd, h7]
    rfl
  · exact getLastInterruptPinValue_regs w
  · exact getLastInterruptPinValue_emitted w
  · rcases getLastInterruptPinValue_emitted w with h | h <;> rw [h] <;> rfl

end MCP23008
